import Mathlib

/-!
Verification of the priority/recurrence inference engine of the
family-calendar task manager.

The embedded functions follow `backend/ai_agent.py` (`safe_parse_date`,
`get_effective_priority`, `predict_auto_renew`) and
`backend/task_manager.py` (`safe_parse_date`, `get_recurring_suggestions`).

Modelling conventions:
- Python `str` is modelled as Lean `String` restricted to ASCII content
  (lowercasing and digit recognition are ASCII, which covers every
  keyword and date involved).
- `datetime.now()` is modelled as an integer `now` counting seconds from
  the midnight of ordinal day 0; the calendar day of `now` is
  `now.fdiv 86400`.  A parsed due date is a midnight instant, i.e. the
  instant `toordinal d * 86400`.  `timedelta.days` floors, which is
  exactly `Int.fdiv` by 86400.
- `datetime.strptime(s, "%Y-%m-%d")` is modelled after CPython's
  `_strptime`: the year is exactly four digits, month is `1[0-2]|0[1-9]|[1-9]`,
  day is `3[01]|[12]\d|0[1-9]|[1-9]| [1-9]`, the whole string must be
  consumed, and the resulting numbers must form a real calendar date with
  year at least 1 (else `ValueError`, which the source catches,
  returning `None`).
- date ordinal arithmetic (`date + timedelta(days=7)`, `datetime`
  subtraction) uses the standard civil-calendar ordinal conversion
  (days counted from 0000-03-01 of the proleptic Gregorian calendar);
  only differences and shifts of ordinals are ever observed, so the
  choice of epoch is immaterial.
- exceptions are modelled with `Except`; the external OpenAI client is a
  parameter (each `client.chat.completions.create` call site is one
  `Except`-valued argument, and reading `choices[0].message.content` out
  of a response is another).
-/

namespace FamilyCalendar

/-- ASCII lowercasing of one character, the effect of Python `str.lower`
on the ASCII inputs considered here. -/
def pyLowerChar (c : Char) : Char :=
  if 'A' ≤ c ∧ c ≤ 'Z' then Char.ofNat (c.toNat + 32) else c

/-- Python `str.lower` (ASCII model). -/
def pyLowerStr (s : String) : String :=
  ⟨s.data.map pyLowerChar⟩

/-- Whitespace characters stripped by Python `str.strip()`. -/
def isSpaceChar (c : Char) : Bool :=
  c = ' ' ∨ c = '\t' ∨ c = '\n' ∨ c = '\r' ∨ c = '\x0b' ∨ c = '\x0c'

/-- Python `str.strip()`: drop whitespace from both ends. -/
def pyStrip (s : String) : String :=
  ⟨((s.data.dropWhile isSpaceChar).reverse.dropWhile isSpaceChar).reverse⟩

/-- ASCII decimal digit test (the `\d` of the `_strptime` regexes on
ASCII input). -/
def isDigitC (c : Char) : Bool :=
  '0' ≤ c ∧ c ≤ '9'

/-- Numeric value of one ASCII digit. -/
def charVal (c : Char) : ℕ :=
  c.toNat - 48

/-- Numeric value of a digit string, as Python `int` reads it. -/
def digitsToNat (l : List Char) : ℕ :=
  l.foldl (fun a c => 10 * a + charVal c) 0

/-- Split a character list into its maximal digit run and the rest. -/
def takeDigits : List Char → List Char × List Char
  | [] => ([], [])
  | c :: cs =>
    if isDigitC c then
      let p := takeDigits cs
      (c :: p.1, p.2)
    else ([], c :: cs)

/-- Is the needle a leading run of the haystack (Python substring search
helper)? -/
def isPrefixB : List Char → List Char → Bool
  | [], _ => true
  | _ :: _, [] => false
  | a :: as, b :: bs => a == b && isPrefixB as bs

/-- Python `needle in haystack` on strings (substring containment). -/
def isSubB : List Char → List Char → Bool
  | n, [] => isPrefixB n []
  | n, c :: t => isPrefixB n (c :: t) || isSubB n t

/-- Gregorian leap-year rule used by `datetime.date`. -/
def isLeap (y : ℕ) : Bool :=
  y % 4 = 0 ∧ (y % 100 ≠ 0 ∨ y % 400 = 0)

/-- Length of a month, as `datetime.date` validates the day field. -/
def daysInMonth (y m : ℕ) : ℕ :=
  if m = 2 then (if isLeap y then 29 else 28)
  else if m = 4 ∨ m = 6 ∨ m = 9 ∨ m = 11 then 30
  else 31

/-- A resolved calendar date (the payload of a successful
`datetime.strptime(s, "%Y-%m-%d")`). -/
structure Date where
  year : ℕ
  month : ℕ
  day : ℕ
deriving DecidableEq, Repr

/-- The all-digit day forms of `"%Y-%m-%d"` (regex
`3[01]|[12]\d|0[1-9]|[1-9]`): a digit run covering the whole rest of
the input, one or two digits long, valued 1..31. -/
def dayDigits (l : List Char) : Option ℕ :=
  match takeDigits l with
  | (ds, []) =>
    if 1 ≤ ds.length ∧ ds.length ≤ 2 ∧ 1 ≤ digitsToNat ds ∧ digitsToNat ds ≤ 31 then
      some (digitsToNat ds)
    else none
  | _ => none

/-- The day field of `"%Y-%m-%d"`: either an all-digit form, or a space
followed by one nonzero digit (regex alternative `" [1-9]"`). -/
def parseDay (l : List Char) : Option ℕ :=
  match l with
  | [c, d] =>
    if c = ' ' then
      if '1' ≤ d ∧ d ≤ '9' then some (charVal d) else none
    else dayDigits [c, d]
  | _ => dayDigits l

/-- The month-dash-day tail of `"%Y-%m-%d"`: a month field (one or two
digits valued 1..12, regex `1[0-2]|0[1-9]|[1-9]`), a dash, then the day
field. -/
def parseMonthDay (r2 : List Char) : Option (ℕ × ℕ) :=
  match takeDigits r2 with
  | (ms, c2 :: r4) =>
    if c2 = '-' ∧ 1 ≤ ms.length ∧ ms.length ≤ 2 ∧
        1 ≤ digitsToNat ms ∧ digitsToNat ms ≤ 12 then
      (parseDay r4).map fun dv => (digitsToNat ms, dv)
    else none
  | (_, []) => none

/-- The `"%Y-%m-%d"` pattern match of CPython `_strptime` (year exactly
four digits, a dash, then the month-dash-day tail), requiring the whole
input to be consumed. -/
def parseYMD (l : List Char) : Option (ℕ × ℕ × ℕ) :=
  match takeDigits l with
  | (ys, c1 :: r2) =>
    if c1 = '-' ∧ ys.length = 4 then
      (parseMonthDay r2).map fun md => (digitsToNat ys, md.1, md.2)
    else none
  | (_, []) => none

/-- `safe_parse_date` (both copies, `ai_agent.py` and `task_manager.py`):
`datetime.strptime(date_str, "%Y-%m-%d")` wrapped in
`try/except (ValueError, TypeError)`.  A `None` argument raises
`TypeError`, a non-matching or calendar-invalid string raises
`ValueError`; both are caught and give `None`. -/
def safe_parse_date (dateStr : Option String) : Option Date :=
  match dateStr with
  | none => none
  | some s =>
    match parseYMD s.data with
    | some (y, m, d) =>
      if 1 ≤ y ∧ d ≤ daysInMonth y m then some ⟨y, m, d⟩ else none
    | none => none

/-- `date.toordinal`-style conversion of a civil date to a day count
(epoch 0000-03-01; standard `days_from_civil` algorithm). -/
def toordinal (dt : Date) : ℤ :=
  let y : ℤ := if dt.month ≤ 2 then (dt.year : ℤ) - 1 else (dt.year : ℤ)
  let era : ℤ := Int.fdiv y 400
  let yoe : ℤ := y - era * 400
  let mp : ℤ := if dt.month ≤ 2 then (dt.month : ℤ) + 9 else (dt.month : ℤ) - 3
  let doy : ℤ := Int.fdiv (153 * mp + 2) 5 + (dt.day : ℤ) - 1
  let doe : ℤ := yoe * 365 + Int.fdiv yoe 4 - Int.fdiv yoe 100 + doy
  era * 146097 + doe

/-- `date.fromordinal`-style conversion back to a civil date (standard
`civil_from_days` algorithm, same epoch as `toordinal`). -/
def fromordinal (z : ℤ) : Date :=
  let era : ℤ := Int.fdiv z 146097
  let doe : ℤ := z - era * 146097
  let yoe : ℤ := Int.fdiv (doe - Int.fdiv doe 1460 + Int.fdiv doe 36524 - Int.fdiv doe 146096) 365
  let y : ℤ := yoe + era * 400
  let doy : ℤ := doe - (365 * yoe + Int.fdiv yoe 4 - Int.fdiv yoe 100)
  let mp : ℤ := Int.fdiv (5 * doy + 2) 153
  let d : ℤ := doy - Int.fdiv (153 * mp + 2) 5 + 1
  let m : ℤ := if mp < 10 then mp + 3 else mp - 9
  ⟨(if m ≤ 2 then y + 1 else y).toNat, m.toNat, d.toNat⟩

/-- Two-digit zero padding, as `strftime` renders `%m` and `%d`. -/
def pad2 (n : ℕ) : String :=
  if n < 10 then "0" ++ toString n else toString n

/-- `strftime("%Y-%m-%d")` (glibc renders `%Y` without padding; every
year arising in the claims has four digits). -/
def formatDate (dt : Date) : String :=
  toString dt.year ++ "-" ++ pad2 dt.month ++ "-" ++ pad2 dt.day

/-- Number of whole days from the instant `now` to the midnight of
ordinal day `o`: `(due_date - today).days` of `ai_agent.py`, where
`timedelta.days` floors. -/
def daysLeft (now o : ℤ) : ℤ :=
  Int.fdiv (o * 86400 - now) 86400

/-- A task record as consumed by `get_effective_priority` (`task.get`
defaults applied: missing text fields are `""`, missing `due_date` is
`None`, missing `reminder_days` is 1). -/
structure Task where
  title : String := ""
  description : String := ""
  category : String := ""
  due_date : Option String := none
  reminder_days : ℤ := 1
deriving DecidableEq, Repr

/-- The `urgent_keywords` list of `get_effective_priority`. -/
def urgent_keywords : List String :=
  ["doctor", "appointment", "exam", "surgery", "meeting",
   "interview", "deadline", "project", "bill", "payment"]

/-- `kw in title or kw in description or kw in category` after the
lowercasing at the top of `get_effective_priority`. -/
def kwMatchB (t : Task) (kw : String) : Bool :=
  isSubB kw.data (pyLowerStr t.title).data ||
  isSubB kw.data (pyLowerStr t.description).data ||
  isSubB kw.data (pyLowerStr t.category).data

/-- The due-date and reminder stage of `get_effective_priority`
(everything before the keyword loop): yields the running priority and
the reason list accumulated so far. -/
def dateSignal (now : ℤ) (due : Option String) (reminderDays : ℤ) :
    String × List String :=
  match due with
  | none => ("Low", [])
  | some s =>
    if s = "" then ("Low", [])
    else
      match safe_parse_date (some s) with
      | none => ("Low", ["invalid or missing due date"])
      | some d =>
        let o := toordinal d
        let dl := daysLeft now o
        let base : String × List String :=
          if dl ≤ 2 then ("High", ["due in " ++ toString dl ++ " days"])
          else if dl ≤ 7 then ("Medium", ["due in " ++ toString dl ++ " days"])
          else ("Low", ["due in " ++ toString dl ++ " days"])
        if (o - reminderDays) * 86400 ≤ now ∧ base.1 ≠ "High" then
          ("High", base.2 ++ ["reminder triggered (" ++ toString reminderDays ++ "d before)"])
        else base

/-- `get_effective_priority` up to (and including) the keyword loop:
the final priority string together with the reason list (before the
final `", ".join`). -/
def effectiveParts (now : ℤ) (t : Task) : String × List String :=
  let base := dateSignal now t.due_date t.reminder_days
  match urgent_keywords.find? (kwMatchB t) with
  | some kw => ("High", base.2 ++ ["contains urgent keyword: " ++ kw])
  | none => base

/-- The dictionary returned by `get_effective_priority`. -/
structure PriorityResult where
  priority : String
  reason : String
deriving DecidableEq, Repr

/-- `get_effective_priority(task)` of `ai_agent.py`, with the current
datetime passed explicitly as `now`. -/
def get_effective_priority (now : ℤ) (t : Task) : PriorityResult :=
  let parts := effectiveParts now t
  { priority := parts.1
    reason := if parts.2 = [] then "no strong signals" else String.intercalate ", " parts.2 }

/-- `"yes" in reply` of `predict_auto_renew`, applied after
`.strip().lower()`. -/
def hasYes (s : String) : Bool :=
  isSubB "yes".data s.data

/-- Reading a reply out of a successfully returned response object and
classifying it, i.e. the body of the second `try` of
`predict_auto_renew` when no exception occurs while reading. -/
def interpretReply {α : Type} (content : α → Except String String) (r : α) : String :=
  match content r with
  | Except.ok raw => if hasYes (pyLowerStr (pyStrip raw)) then "Yes" else "No"
  | Except.error _ => "No"

/-- `predict_auto_renew(title, description)` of `ai_agent.py`, with the
two `client.chat.completions.create` call sites passed as `call1`
(gpt-5-mini) and `call2` (gpt-4o-mini) and response reading passed as
`content`.  The first `try` retries with `call2` when `call1` fails and
does not guard `call2`; the second `try` turns a reading failure into
`"No"`. -/
def predict_auto_renew {α : Type} (call1 call2 : Except String α)
    (content : α → Except String String) : Except String String :=
  match (match call1 with
         | Except.ok r => Except.ok r
         | Except.error _ => call2) with
  | Except.error e => Except.error e
  | Except.ok r =>
    match content r with
    | Except.ok raw =>
      Except.ok (if hasYes (pyLowerStr (pyStrip raw)) then "Yes" else "No")
    | Except.error _ => Except.ok "No"

/-- One row of the `tasks` table as read by `get_recurring_suggestions`. -/
structure TaskRow where
  title : String := ""
  description : String := ""
  category : String := ""
  due_date : Option String := none
  priority : String := "Medium"
  reminder_days : ℤ := 1
deriving DecidableEq, Repr

/-- One suggestion dictionary produced by `get_recurring_suggestions`. -/
structure Suggestion where
  title : String
  description : String
  category : String
  due_date : String
  priority : String
  reminder_days : ℤ
deriving DecidableEq, Repr

/-- The suggestion built from a row whose date resolved:
`(parsed_due_date + timedelta(days=7)).strftime("%Y-%m-%d")` with every
other field copied unchanged. -/
def mkSuggestion (r : TaskRow) (d : Date) : Suggestion :=
  { title := r.title
    description := r.description
    category := r.category
    due_date := formatDate (fromordinal (toordinal d + 7))
    priority := r.priority
    reminder_days := r.reminder_days }

/-- `get_recurring_suggestions()` of `task_manager.py`, with the table
rows passed as a list and `predict_auto_renew` abstracted as `oracle`
(its reply per `(title, description)`).  Rows whose due date does not
resolve are skipped; rows the oracle answers `"Yes"` for are emitted. -/
def get_recurring_suggestions (oracle : String → String → String) :
    List TaskRow → List Suggestion
  | [] => []
  | r :: rs =>
    match safe_parse_date r.due_date with
    | none => get_recurring_suggestions oracle rs
    | some d =>
      if oracle r.title r.description = "Yes" then
        mkSuggestion r d :: get_recurring_suggestions oracle rs
      else
        get_recurring_suggestions oracle rs

/-! Definitions written from the specification's words, used to compare
the claims against the embedded source functions. -/

/-- Modelled from the spec: the date bucket the claims describe, with
`days_left = due_date - today` taken in whole calendar days. -/
def claimDateBucket (todayOrd dueOrd : ℤ) : String :=
  if dueOrd - todayOrd ≤ 2 then "High"
  else if dueOrd - todayOrd ≤ 7 then "Medium"
  else "Low"

/-- Modelled from the spec: the urgent-keyword set named by the claims,
which includes `"rent"`. -/
def claim_urgent_keywords : List String :=
  ["doctor", "appointment", "exam", "surgery", "meeting",
   "interview", "deadline", "project", "rent", "bill", "payment"]

/-- Modelled from the spec: strict `YYYY-MM-DD` shape — exactly ten
characters, four digits, a dash, two digits, a dash, two digits, naming
a real calendar date. -/
def strictYMDB (s : String) : Bool :=
  match s.data with
  | [y1, y2, y3, y4, h1, m1, m2, h2, d1, d2] =>
    isDigitC y1 && isDigitC y2 && isDigitC y3 && isDigitC y4 &&
    h1 = '-' && h2 = '-' &&
    isDigitC m1 && isDigitC m2 && isDigitC d1 && isDigitC d2 &&
    (let y := digitsToNat [y1, y2, y3, y4]
     let m := digitsToNat [m1, m2]
     let d := digitsToNat [d1, d2]
     1 ≤ y ∧ 1 ≤ m ∧ m ≤ 12 ∧ 1 ≤ d ∧ d ≤ daysInMonth y m)
  | _ => false

/-- A Boolean keyword-reason recogniser: does a reason string start with
the keyword-reason template? -/
def isKwReasonB (r : String) : Bool :=
  isPrefixB "contains urgent keyword: ".data r.data

/-- Rank of a priority string in the order Low < Medium < High. -/
def prioRank (p : String) : ℕ :=
  if p = "High" then 2 else if p = "Medium" then 1 else 0

/-- Helper for `pyWords`: accumulate the current word (reversed) while
scanning. -/
def splitWordsAux : List Char → List Char → List (List Char)
  | [], acc => if acc = [] then [] else [acc.reverse]
  | c :: cs, acc =>
    if c = ' ' then
      (if acc = [] then splitWordsAux cs [] else acc.reverse :: splitWordsAux cs [])
    else splitWordsAux cs (c :: acc)

/-- Python `str.split()` restricted to spaces: the whitespace-separated
words of a string. -/
def pyWords (s : String) : List String :=
  (splitWordsAux s.data []).map fun w => ⟨w⟩

/-- The month field language of `"%Y-%m-%d"`: one or two digits whose
value is a real month number. -/
def monthStr (b : List Char) : Prop :=
  (∀ c ∈ b, isDigitC c = true) ∧ 1 ≤ b.length ∧ b.length ≤ 2 ∧
  1 ≤ digitsToNat b ∧ digitsToNat b ≤ 12

/-- The day field language of `"%Y-%m-%d"` together with the value it
denotes: one or two digits valued 1..31, or a space then a nonzero
digit. -/
def dayStr (c : List Char) (dv : ℕ) : Prop :=
  ((∀ ch ∈ c, isDigitC ch = true) ∧ 1 ≤ c.length ∧ c.length ≤ 2 ∧
   1 ≤ digitsToNat c ∧ digitsToNat c ≤ 31 ∧ dv = digitsToNat c) ∨
  (∃ d, c = [' ', d] ∧ '1' ≤ d ∧ d ≤ '9' ∧ dv = charVal d)

/-- The exact language `safe_parse_date` resolves: a four-digit year of
value at least 1, a dash, a month field, a dash, a day field whose value
exists in that month. -/
def flexYMD (s : String) : Prop :=
  ∃ a b c dv,
    s.data = a ++ '-' :: (b ++ '-' :: c) ∧
    (∀ ch ∈ a, isDigitC ch = true) ∧ a.length = 4 ∧ 1 ≤ digitsToNat a ∧
    monthStr b ∧ dayStr c dv ∧
    dv ≤ daysInMonth (digitsToNat a) (digitsToNat b)

/-! ## Helper lemmas -/

/-- The two-sided bound defining `Int.fdiv` by 86400. -/
theorem fdiv86400_bounds (a : ℤ) :
    86400 * Int.fdiv a 86400 ≤ a ∧ a < 86400 * Int.fdiv a 86400 + 86400 := by
  rw [Int.fdiv_eq_ediv a (by norm_num)]
  have h1 := Int.ediv_add_emod a 86400
  have h2 := Int.emod_nonneg a (b := 86400) (by norm_num)
  have h3 := Int.emod_lt_of_pos a (b := 86400) (by norm_num)
  omega

/-- `daysLeft` is monotone in the due ordinal. -/
theorem daysLeft_mono (now : ℤ) {o1 o2 : ℤ} (h : o2 ≤ o1) :
    daysLeft now o2 ≤ daysLeft now o1 := by
  have h1 := fdiv86400_bounds (o1 * 86400 - now)
  have h2 := fdiv86400_bounds (o2 * 86400 - now)
  simp only [daysLeft]
  omega

/-- A candidate run starting with a different character is never a
leading run. -/
theorem isPrefixB_head_ne {a b : Char} (h : (a == b) = false) (l1 l2 : List Char) :
    isPrefixB (a :: l1) (b :: l2) = false := by
  simp [isPrefixB, h]

/-- Every list is an extension of its own leading run. -/
theorem isPrefixB_self_append (a b : List Char) : isPrefixB a (a ++ b) = true := by
  induction a with
  | nil => rfl
  | cons c cs ih => simp [isPrefixB, ih]

/-- A keyword reason is recognised by `isKwReasonB`. -/
theorem isKwReasonB_kwReason (kw : String) :
    isKwReasonB ("contains urgent keyword: " ++ kw) = true := by
  simp only [isKwReasonB, String.data_append]
  exact isPrefixB_self_append _ _

/-- A `"due in N days"` reason is not a keyword reason. -/
theorem isKwReasonB_due (x : String) : isKwReasonB ("due in " ++ x ++ " days") = false := by
  simp only [isKwReasonB, String.data_append]
  simp only [show ("contains urgent keyword: ").data =
      'c' :: ("ontains urgent keyword: ").data from rfl,
    show ("due in ").data = 'd' :: ("ue in ").data from rfl, List.cons_append]
  exact isPrefixB_head_ne (by decide) _ _

/-- A `"reminder triggered (...)"` reason is not a keyword reason. -/
theorem isKwReasonB_reminder (x : String) :
    isKwReasonB ("reminder triggered (" ++ x ++ "d before)") = false := by
  simp only [isKwReasonB, String.data_append]
  simp only [show ("contains urgent keyword: ").data =
      'c' :: ("ontains urgent keyword: ").data from rfl,
    show ("reminder triggered (").data = 'r' :: ("eminder triggered (").data from rfl,
    List.cons_append]
  exact isPrefixB_head_ne (by decide) _ _

/-- The date stage of a task with no due date yields Low and no reason. -/
theorem dateSignal_none (now rd : ℤ) : dateSignal now none rd = ("Low", []) := rfl

/-- The date stage of a task with an empty due-date string yields Low
and no reason. -/
theorem dateSignal_empty (now rd : ℤ) : dateSignal now (some "") rd = ("Low", []) := by
  simp [dateSignal]

/-- The date stage of a task with a non-empty unresolvable due date
yields Low and the invalid-date reason. -/
theorem dateSignal_unres (now rd : ℤ) {s : String} (hs : s ≠ "")
    (hp : safe_parse_date (some s) = none) :
    dateSignal now (some s) rd = ("Low", ["invalid or missing due date"]) := by
  simp [dateSignal, hs, hp]

/-- When the due date resolves, the date stage's reason list is the
due-in reason, followed by the reminder reason exactly when the
reminder fired. -/
theorem dateSignal_snd_parsed (now rd : ℤ) {s : String} {d : Date} (hs : s ≠ "")
    (hp : safe_parse_date (some s) = some d) :
    (dateSignal now (some s) rd).2 =
        ["due in " ++ toString (daysLeft now (toordinal d)) ++ " days"] ∨
    (dateSignal now (some s) rd).2 =
        ["due in " ++ toString (daysLeft now (toordinal d)) ++ " days",
         "reminder triggered (" ++ toString rd ++ "d before)"] := by
  simp only [dateSignal, if_neg hs, hp]
  split_ifs <;> simp

/-- When the due date resolves, the date stage's priority is High for a
near or overdue date or a fired reminder, Medium inside the week, and
Low otherwise. -/
theorem dateSignal_fst_parsed (now rd : ℤ) {s : String} {d : Date} (hs : s ≠ "")
    (hp : safe_parse_date (some s) = some d) :
    (dateSignal now (some s) rd).1 =
      (if daysLeft now (toordinal d) ≤ 2 then "High"
       else if (toordinal d - rd) * 86400 ≤ now then "High"
       else if daysLeft now (toordinal d) ≤ 7 then "Medium"
       else "Low") := by
  simp only [dateSignal, if_neg hs, hp]
  split_ifs <;> simp_all

/-- No reason produced by the date/reminder stage is a keyword reason. -/
theorem dateSignal_not_kwReason (now : ℤ) (due : Option String) (rd : ℤ) :
    ∀ r ∈ (dateSignal now due rd).2, isKwReasonB r = false := by
  intro r hr
  cases due with
  | none => simp [dateSignal_none] at hr
  | some s =>
    by_cases hs : s = ""
    · rw [hs, dateSignal_empty] at hr
      simp at hr
    · cases hp : safe_parse_date (some s) with
      | none =>
        rw [dateSignal_unres now rd hs hp] at hr
        simp at hr
        subst hr; decide
      | some d =>
        rcases dateSignal_snd_parsed now rd hs hp with h | h <;> rw [h] at hr <;>
          simp only [List.mem_cons, List.not_mem_nil, or_false] at hr
        · subst hr; exact isKwReasonB_due _
        · rcases hr with hr | hr <;> subst hr
          · exact isKwReasonB_due _
          · exact isKwReasonB_reminder _

/-- A keyword reason is never the invalid-date reason. -/
theorem kwReason_ne_invalid (kw : String) :
    ("contains urgent keyword: " ++ kw) ≠ "invalid or missing due date" := by
  intro h
  have h1 := isKwReasonB_kwReason kw
  rw [h] at h1
  exact absurd h1 (by decide)

/-- The keyword predicate ignores the due date field. -/
theorem kwMatchB_due_irrel (t : Task) (o : Option String) :
    kwMatchB { t with due_date := o } = kwMatchB t := by
  funext kw
  simp [kwMatchB]

/-- When no urgent keyword matches, the keyword loop leaves the date
stage's result untouched. -/
theorem effectiveParts_no_kw (now : ℤ) (t : Task)
    (h : urgent_keywords.find? (kwMatchB t) = none) :
    effectiveParts now t = dateSignal now t.due_date t.reminder_days := by
  simp [effectiveParts, h]

/-- When an urgent keyword matches, the keyword loop forces High and
appends exactly the keyword reason of the first match. -/
theorem effectiveParts_kw (now : ℤ) (t : Task) {kw : String}
    (h : urgent_keywords.find? (kwMatchB t) = some kw) :
    effectiveParts now t =
      ("High", (dateSignal now t.due_date t.reminder_days).2 ++
               ["contains urgent keyword: " ++ kw]) := by
  simp [effectiveParts, h]

/-- The returned priority string is the first component of the parts. -/
theorem get_effective_priority_fst (now : ℤ) (t : Task) :
    (get_effective_priority now t).priority = (effectiveParts now t).1 := rfl

/-! ## Claim C4 -/

/-- C4, counterexample: when both classifier calls fail (simulated
timeouts), `predict_auto_renew` propagates the second exception to the
caller instead of returning the safe "No"; the claim's "returns false,
never raises, no retry" is false on the code. -/
theorem c4_counterexample :
    predict_auto_renew (α := Unit) (Except.error "timeout") (Except.error "timeout")
      (fun _ => Except.ok "yes") = Except.error "timeout" := rfl

/-- C4, amended: on failure of the first classifier call,
`predict_auto_renew` makes exactly one retry with the fallback model;
any obtained reply is interpreted (malformed replies read as "No"
without raising), and only when the retry also fails does the exception
propagate to the caller. -/
theorem c4_retry_semantics {α : Type} (call1 call2 : Except String α)
    (content : α → Except String String) :
    predict_auto_renew call1 call2 content =
      (match call1 with
       | Except.ok r => Except.ok (interpretReply content r)
       | Except.error _ => Except.map (interpretReply content) call2) := by
  cases call1 with
  | ok r => cases h : content r <;> simp [predict_auto_renew, interpretReply, h]
  | error e =>
    cases call2 with
    | ok r => cases h : content r <;> simp [predict_auto_renew, interpretReply, Except.map, h]
    | error e2 => rfl

/-! ## Claim C5 -/

/-- C5: `get_recurring_suggestions` keeps exactly the rows whose due
date resolves and whose oracle reply is "Yes", in input order, and maps
each kept row to the suggestion carrying its title, description,
category, priority and reminder_days unchanged with the due date
advanced by exactly 7 days and re-formatted. -/
theorem c5_generator_shape (oracle : String → String → String) (rows : List TaskRow) :
    get_recurring_suggestions oracle rows =
      (rows.filter (fun r => (safe_parse_date r.due_date).isSome &&
          (oracle r.title r.description == "Yes"))).map
        (fun r =>
          { title := r.title
            description := r.description
            category := r.category
            due_date := formatDate (fromordinal
              (toordinal ((safe_parse_date r.due_date).getD ⟨1, 1, 1⟩) + 7))
            priority := r.priority
            reminder_days := r.reminder_days }) := by
  induction rows with
  | nil => rfl
  | cons r rs ih =>
    cases hp : safe_parse_date r.due_date with
    | none => simp [get_recurring_suggestions, hp, ih, List.filter_cons]
    | some d =>
      by_cases hy : oracle r.title r.description = "Yes"
      · simp [get_recurring_suggestions, mkSuggestion, hp, hy, ih, List.filter_cons]
      · simp [get_recurring_suggestions, hp, hy, ih, List.filter_cons]

/-- When the due date resolves, the bucket is not High, and the
reminder condition holds, the date stage records both reasons. -/
theorem dateSignal_snd_fired (now rd : ℤ) {s : String} {d : Date} (hs : s ≠ "")
    (hp : safe_parse_date (some s) = some d)
    (hrem : (toordinal d - rd) * 86400 ≤ now)
    (hb : ¬ daysLeft now (toordinal d) ≤ 2) :
    (dateSignal now (some s) rd).2 =
      ["due in " ++ toString (daysLeft now (toordinal d)) ++ " days",
       "reminder triggered (" ++ toString rd ++ "d before)"] := by
  simp only [dateSignal, if_neg hs, hp]
  split_ifs <;> simp_all

/-! ## Claim C1 -/

/-- C1, counterexample: at 10:30 in the morning of 2025-10-12, a
keyword-free task due 2025-10-15 — three calendar days ahead, Medium
under the claim's calendar-day rule — is classified High, because
`days_left` is computed from `datetime.now()` including the time of day
and comes out as 2.  The keyword and reminder triggers are silent
here. -/
theorem c1_counterexample :
    (get_effective_priority (toordinal ⟨2025, 10, 12⟩ * 86400 + 37800)
        { title := "water plants", due_date := some "2025-10-15" }).priority = "High" ∧
    claimDateBucket (Int.fdiv (toordinal ⟨2025, 10, 12⟩ * 86400 + 37800) 86400)
        (toordinal ⟨2025, 10, 15⟩) = "Medium" ∧
    (urgent_keywords.find?
        (kwMatchB { title := "water plants", due_date := some "2025-10-15" })).isNone = true ∧
    toordinal ⟨2025, 10, 12⟩ * 86400 + 37800 < (toordinal ⟨2025, 10, 15⟩ - 1) * 86400 := by
  refine ⟨?_, ?_, ?_, ?_⟩ <;> decide

/-- C1, amended: for a task with a resolvable due date and no keyword
or reminder trigger, the bucket thresholds `days_left <= 2` High,
`days_left <= 7` Medium, else Low are applied to
`days_left = (due_midnight - now).days`, the floored difference between
the due date's midnight and the current datetime — which is one less
than the calendar-day difference whenever `now` is past midnight, so a
due date equal to today yields `days_left = -1` (still High) and the
High/Medium boundary sits between 3 and 4 calendar days out. -/
theorem c1_bucket (now : ℤ) (t : Task) (s : String) (d : Date)
    (hdue : t.due_date = some s) (hne : s ≠ "")
    (hp : safe_parse_date (some s) = some d)
    (hkw : urgent_keywords.find? (kwMatchB t) = none)
    (hrem : now < (toordinal d - t.reminder_days) * 86400) :
    (get_effective_priority now t).priority =
      (if daysLeft now (toordinal d) ≤ 2 then "High"
       else if daysLeft now (toordinal d) ≤ 7 then "Medium" else "Low") := by
  rw [get_effective_priority_fst, effectiveParts_no_kw now t hkw, hdue,
      dateSignal_fst_parsed now t.reminder_days hne hp]
  have h : ¬ (toordinal d - t.reminder_days) * 86400 ≤ now := by omega
  simp [h]

/-- C1, witness: at 10:30 in the morning of 2025-10-12, the keyword-free
task due 2025-10-20 (days_left = 7) is classified Medium by the
amended bucket rule. -/
theorem c1_witness :
    (get_effective_priority (toordinal ⟨2025, 10, 12⟩ * 86400 + 37800)
        { title := "water plants", due_date := some "2025-10-20" }).priority = "Medium" := by
  rw [c1_bucket (toordinal ⟨2025, 10, 12⟩ * 86400 + 37800)
      { title := "water plants", due_date := some "2025-10-20" }
      "2025-10-20" ⟨2025, 10, 20⟩ rfl (by decide) (by decide) (by decide) (by decide)]
  decide

/-! ## Claim C2 -/

/-- C2, counterexample: a task titled "rent" — whose text contains the
keyword "rent" of the claim's urgent set — is classified Low with no
keyword reason, because the `urgent_keywords` list of
`get_effective_priority` does not contain "rent". -/
theorem c2_counterexample :
    get_effective_priority 0 { title := "rent" } =
      { priority := "Low", reason := "no strong signals" } ∧
    claim_urgent_keywords.contains "rent" = true ∧
    isSubB "rent".data (pyLowerStr "rent").data = true := by
  refine ⟨?_, ?_, ?_⟩ <;> decide

/-- C2, amended: whenever the title, description or category contains
(case-insensitively) a keyword of the code's urgent set — doctor,
appointment, exam, surgery, meeting, interview, deadline, project,
bill, payment; "rent" is not in it — the priority is forced High
regardless of any date signal, and exactly one keyword reason
"contains urgent keyword: kw" is appended, for the first keyword of
the list that matches. -/
theorem c2_keyword_forces_high (now : ℤ) (t : Task)
    (h : ∃ kw ∈ urgent_keywords, kwMatchB t kw = true) :
    (get_effective_priority now t).priority = "High" ∧
    ∃ kw, urgent_keywords.find? (kwMatchB t) = some kw ∧
      (effectiveParts now t).2 =
        (dateSignal now t.due_date t.reminder_days).2 ++
          ["contains urgent keyword: " ++ kw] ∧
      List.countP isKwReasonB (effectiveParts now t).2 = 1 := by
  have hsome : (urgent_keywords.find? (kwMatchB t)).isSome := List.find?_isSome.mpr h
  obtain ⟨kw, hf⟩ := Option.isSome_iff_exists.mp hsome
  refine ⟨?_, kw, hf, ?_, ?_⟩
  · rw [get_effective_priority_fst, effectiveParts_kw now t hf]
  · rw [effectiveParts_kw now t hf]
  · rw [effectiveParts_kw now t hf]
    simp only [List.countP_append]
    have h0 : List.countP isKwReasonB (dateSignal now t.due_date t.reminder_days).2 = 0 :=
      List.countP_eq_zero.mpr
        (by intro r hr; simp [dateSignal_not_kwReason now _ _ r hr])
    have h1 : List.countP isKwReasonB ["contains urgent keyword: " ++ kw] = 1 := by
      simp [List.countP_cons, isKwReasonB_kwReason]
    omega

/-- C2, witness: the spec's own example — title "Buy milk", description
"doctor follow-up", due 30 days out — is forced High by the keyword
"doctor". -/
theorem c2_witness :
    (get_effective_priority (toordinal ⟨2025, 10, 12⟩ * 86400)
        { title := "Buy milk", description := "doctor follow-up",
          due_date := some "2025-11-11" }).priority = "High" :=
  (c2_keyword_forces_high (toordinal ⟨2025, 10, 12⟩ * 86400)
    { title := "Buy milk", description := "doctor follow-up",
      due_date := some "2025-11-11" }
    ⟨"doctor", by decide, by decide⟩).1

/-! ## Claim C3 -/

/-- C3, counterexample: at midnight of 2025-10-12, a task due 2025-10-17
with `reminder_days = 5` has its reminder fire out of the Medium bucket
and is escalated to High, but the recorded reason is
"reminder triggered (5d before)", not the claim's
"reminder triggered (reminder_days=5)". -/
theorem c3_counterexample :
    (effectiveParts (toordinal ⟨2025, 10, 12⟩ * 86400)
        { title := "water plants", due_date := some "2025-10-17", reminder_days := 5 }).2 =
      ["due in 5 days", "reminder triggered (5d before)"] ∧
    ((effectiveParts (toordinal ⟨2025, 10, 12⟩ * 86400)
        { title := "water plants", due_date := some "2025-10-17",
          reminder_days := 5 }).2.contains "reminder triggered (reminder_days=5)") = false ∧
    (get_effective_priority (toordinal ⟨2025, 10, 12⟩ * 86400)
        { title := "water plants", due_date := some "2025-10-17",
          reminder_days := 5 }).priority = "High" := by
  refine ⟨?_, ?_, ?_⟩ <;> decide

/-- C3, amended: when the due date resolves, the reminder window has
been reached (`today >= due - reminder_days`, compared as datetimes),
and the date bucket did not already give High, the priority is
escalated to High and the reason
"reminder triggered (Nd before)" — not "(reminder_days=N)" — is
appended. -/
theorem c3_reminder_escalation (now : ℤ) (t : Task) (s : String) (d : Date)
    (hdue : t.due_date = some s) (hne : s ≠ "")
    (hp : safe_parse_date (some s) = some d)
    (hrem : (toordinal d - t.reminder_days) * 86400 ≤ now)
    (hbucket : ¬ daysLeft now (toordinal d) ≤ 2) :
    (get_effective_priority now t).priority = "High" ∧
    ("reminder triggered (" ++ toString t.reminder_days ++ "d before)") ∈
      (effectiveParts now t).2 := by
  have hsnd : (dateSignal now t.due_date t.reminder_days).2 =
      ["due in " ++ toString (daysLeft now (toordinal d)) ++ " days",
       "reminder triggered (" ++ toString t.reminder_days ++ "d before)"] := by
    rw [hdue]; exact dateSignal_snd_fired now t.reminder_days hne hp hrem hbucket
  constructor
  · rw [get_effective_priority_fst]
    cases hf : urgent_keywords.find? (kwMatchB t) with
    | some kw => rw [effectiveParts_kw now t hf]
    | none =>
      rw [effectiveParts_no_kw now t hf, hdue,
          dateSignal_fst_parsed now t.reminder_days hne hp, if_neg hbucket, if_pos hrem]
  · cases hf : urgent_keywords.find? (kwMatchB t) with
    | some kw => rw [effectiveParts_kw now t hf, hsnd]; simp
    | none => rw [effectiveParts_no_kw now t hf, hsnd]; simp

/-- C3, witness: at midnight of 2025-10-12, the task due 2025-10-17 with
`reminder_days = 5` is escalated to High with the reminder reason. -/
theorem c3_witness :
    (get_effective_priority (toordinal ⟨2025, 10, 12⟩ * 86400)
        { title := "water plants", due_date := some "2025-10-17",
          reminder_days := 5 }).priority = "High" :=
  (c3_reminder_escalation (toordinal ⟨2025, 10, 12⟩ * 86400)
    { title := "water plants", due_date := some "2025-10-17", reminder_days := 5 }
    "2025-10-17" ⟨2025, 10, 17⟩ rfl (by decide) (by decide) (by decide) (by decide)).1

/-! ## Claim C6 -/

/-- C6, counterexample: the malformed due date "13/25/2025" produces the
reason "invalid or missing due date", not the claim's
"invalid due date format". -/
theorem c6_counterexample :
    ((effectiveParts 0 { title := "water plants", due_date := some "13/25/2025" }).2.contains
        "invalid due date format") = false ∧
    (effectiveParts 0 { title := "water plants", due_date := some "13/25/2025" }).2 =
      ["invalid or missing due date"] := by
  refine ⟨?_, ?_⟩ <;> decide

/-- C6, amended: a non-empty unresolvable due date appends the reason
"invalid or missing due date" (not "invalid due date format") and the
priority is then decided by the keyword-only path, without raising
(the embedding is total); an empty or absent due date appends no such
reason. -/
theorem c6_invalid_date (now : ℤ) (t t0 : Task) (s : String)
    (h1 : t.due_date = some s) (h2 : s ≠ "")
    (h3 : safe_parse_date (some s) = none)
    (h0 : t0.due_date = none ∨ t0.due_date = some "") :
    "invalid or missing due date" ∈ (effectiveParts now t).2 ∧
    (get_effective_priority now t).priority =
      (if (urgent_keywords.find? (kwMatchB t)).isSome then "High" else "Low") ∧
    "invalid or missing due date" ∉ (effectiveParts now t0).2 := by
  have hds : dateSignal now t.due_date t.reminder_days =
      ("Low", ["invalid or missing due date"]) := by
    rw [h1]; exact dateSignal_unres now t.reminder_days h2 h3
  have hds0 : dateSignal now t0.due_date t0.reminder_days = ("Low", []) := by
    rcases h0 with h | h <;> rw [h]
    · exact dateSignal_none now t0.reminder_days
    · exact dateSignal_empty now t0.reminder_days
  refine ⟨?_, ?_, ?_⟩
  · cases hf : urgent_keywords.find? (kwMatchB t) with
    | some kw => rw [effectiveParts_kw now t hf, hds]; simp
    | none => rw [effectiveParts_no_kw now t hf, hds]; simp
  · cases hf : urgent_keywords.find? (kwMatchB t) with
    | some kw => rw [get_effective_priority_fst, effectiveParts_kw now t hf]; simp
    | none => rw [get_effective_priority_fst, effectiveParts_no_kw now t hf, hds]; simp
  · cases hf0 : urgent_keywords.find? (kwMatchB t0) with
    | some kw =>
      rw [effectiveParts_kw now t0 hf0, hds0]
      simp only [List.nil_append, List.mem_singleton]
      exact fun h => kwReason_ne_invalid kw h.symm
    | none => rw [effectiveParts_no_kw now t0 hf0, hds0]; simp

/-- C6, witness: the spec's example "13/25/2025" appends the
invalid-date reason and — with no keywords — yields priority Low, while
a task with no due date at all records no invalid-date reason. -/
theorem c6_witness :
    "invalid or missing due date" ∈
      (effectiveParts 0 { title := "water plants", due_date := some "13/25/2025" }).2 :=
  (c6_invalid_date 0 { title := "water plants", due_date := some "13/25/2025" }
    { title := "water plants" } "13/25/2025" rfl (by decide) (by decide) (Or.inl rfl)).1

/-! ## Claim C7 -/

/-- C7, counterexample: a keyword-free task with the non-empty
unresolvable due date "13/25/2025" — "no date signal" in the claim's
sense — gets reason "invalid or missing due date", not the claimed
literal "no strong signals". -/
theorem c7_counterexample :
    (get_effective_priority 0 { title := "water plants", due_date := some "13/25/2025" }).reason =
      "invalid or missing due date" ∧
    ((get_effective_priority 0
        { title := "water plants", due_date := some "13/25/2025" }).reason ==
      "no strong signals") = false ∧
    (get_effective_priority 0
        { title := "water plants", due_date := some "13/25/2025" }).priority = "Low" := by
  refine ⟨?_, ?_, ?_⟩ <;> decide

/-- C7, amended: with no keyword match, an absent or empty due date
yields Low with reason exactly the literal "no strong signals", while a
non-empty unresolvable due date yields Low with reason
"invalid or missing due date". -/
theorem c7_no_signals (now : ℤ) (t t' : Task) (s' : String)
    (h0 : t.due_date = none ∨ t.due_date = some "")
    (hk : urgent_keywords.find? (kwMatchB t) = none)
    (h1 : t'.due_date = some s') (h2 : s' ≠ "")
    (h3 : safe_parse_date (some s') = none)
    (hk' : urgent_keywords.find? (kwMatchB t') = none) :
    get_effective_priority now t = { priority := "Low", reason := "no strong signals" } ∧
    get_effective_priority now t' =
      { priority := "Low", reason := "invalid or missing due date" } := by
  have hds : dateSignal now t.due_date t.reminder_days = ("Low", []) := by
    rcases h0 with h | h <;> rw [h]
    · exact dateSignal_none now t.reminder_days
    · exact dateSignal_empty now t.reminder_days
  have hds' : dateSignal now t'.due_date t'.reminder_days =
      ("Low", ["invalid or missing due date"]) := by
    rw [h1]; exact dateSignal_unres now t'.reminder_days h2 h3
  constructor
  · show (let parts := effectiveParts now t
      ({ priority := parts.1,
         reason := if parts.2 = [] then "no strong signals"
                   else String.intercalate ", " parts.2 } : PriorityResult)) = _
    rw [effectiveParts_no_kw now t hk, hds]
    decide
  · show (let parts := effectiveParts now t'
      ({ priority := parts.1,
         reason := if parts.2 = [] then "no strong signals"
                   else String.intercalate ", " parts.2 } : PriorityResult)) = _
    rw [effectiveParts_no_kw now t' hk', hds']
    decide

/-- C7, witness: a keyword-free task with no due date at all is Low with
reason exactly "no strong signals"; the same task text with due date
"13/25/2025" is Low with the invalid-date reason. -/
theorem c7_witness :
    get_effective_priority 0 { title := "water plants" } =
      { priority := "Low", reason := "no strong signals" } :=
  (c7_no_signals 0 { title := "water plants" }
    { title := "water plants", due_date := some "13/25/2025" } "13/25/2025"
    (Or.inl rfl) (by decide) rfl (by decide) (by decide) (by decide)).1

/-! ## Claim C9 -/

/-- C9: for fixed title, description, category and reminder window, the
effective priority is monotonically non-decreasing (Low < Medium <
High) as the due date moves closer — for two resolvable due dates with
the second one at most as many days out as the first, the second's
priority rank is at least the first's. -/
theorem c9_monotone (now : ℤ) (t : Task) (s1 s2 : String) (d1 d2 : Date)
    (h1 : s1 ≠ "") (h2 : s2 ≠ "")
    (hp1 : safe_parse_date (some s1) = some d1)
    (hp2 : safe_parse_date (some s2) = some d2)
    (hord : toordinal d2 ≤ toordinal d1) :
    prioRank (get_effective_priority now { t with due_date := some s1 }).priority ≤
      prioRank (get_effective_priority now { t with due_date := some s2 }).priority := by
  rw [get_effective_priority_fst, get_effective_priority_fst]
  have hk12 : kwMatchB { t with due_date := some s1 } =
      kwMatchB { t with due_date := some s2 } := by
    funext kw; simp [kwMatchB]
  cases hf : urgent_keywords.find? (kwMatchB { t with due_date := some s1 }) with
  | some kw =>
    have hf2 : urgent_keywords.find? (kwMatchB { t with due_date := some s2 }) = some kw := by
      rw [← hk12]; exact hf
    rw [effectiveParts_kw now _ hf, effectiveParts_kw now _ hf2]
  | none =>
    have hf2 : urgent_keywords.find? (kwMatchB { t with due_date := some s2 }) = none := by
      rw [← hk12]; exact hf
    rw [effectiveParts_no_kw now _ hf, effectiveParts_no_kw now _ hf2,
        show ({ t with due_date := some s1 } : Task).due_date = some s1 from rfl,
        show ({ t with due_date := some s2 } : Task).due_date = some s2 from rfl,
        show ({ t with due_date := some s1 } : Task).reminder_days = t.reminder_days from rfl,
        show ({ t with due_date := some s2 } : Task).reminder_days = t.reminder_days from rfl,
        dateSignal_fst_parsed now t.reminder_days h1 hp1,
        dateSignal_fst_parsed now t.reminder_days h2 hp2]
    have hdl := daysLeft_mono now hord
    have hrm : (toordinal d2 - t.reminder_days) * 86400 ≤
        (toordinal d1 - t.reminder_days) * 86400 := by omega
    split_ifs <;> simp only [prioRank] <;> simp_all <;> omega

/-- C9, witness: at 01:00 of 2025-10-12, moving the due date of a
keyword-free task in from 2025-10-25 (rank Low) to 2025-10-13 does not
decrease its rank. -/
theorem c9_witness :
    prioRank (get_effective_priority (toordinal ⟨2025, 10, 12⟩ * 86400 + 3600)
        { (({ title := "water plants" } : Task)) with due_date := some "2025-10-25" }).priority ≤
      prioRank (get_effective_priority (toordinal ⟨2025, 10, 12⟩ * 86400 + 3600)
        { (({ title := "water plants" } : Task)) with due_date := some "2025-10-13" }).priority :=
  c9_monotone (toordinal ⟨2025, 10, 12⟩ * 86400 + 3600) { title := "water plants" }
    "2025-10-25" "2025-10-13" ⟨2025, 10, 25⟩ ⟨2025, 10, 13⟩
    (by decide) (by decide) (by decide) (by decide) (by decide)

/-! ## Claim C8 -/

/-- `takeDigits` splits its input: the input is the run followed by the
rest. -/
theorem takeDigits_eq (l : List Char) : l = (takeDigits l).1 ++ (takeDigits l).2 := by
  induction l with
  | nil => rfl
  | cons c cs ih =>
    by_cases h : isDigitC c
    · simp only [takeDigits, if_pos h, List.cons_append]
      exact congrArg (c :: ·) ih
    · simp [takeDigits, h]

/-- Every character of the run produced by `takeDigits` is a digit. -/
theorem takeDigits_digits (l : List Char) : ∀ c ∈ (takeDigits l).1, isDigitC c = true := by
  induction l with
  | nil => simp [takeDigits]
  | cons c cs ih =>
    by_cases h : isDigitC c
    · simp only [takeDigits, if_pos h]
      intro x hx
      rcases List.mem_cons.mp hx with hx | hx
      · rw [hx]; exact h
      · exact ih x hx
    · simp [takeDigits, h]

/-- The rest produced by `takeDigits` never starts with a digit. -/
theorem takeDigits_rest (l : List Char) :
    ∀ c cs, (takeDigits l).2 = c :: cs → isDigitC c = false := by
  induction l with
  | nil => simp [takeDigits]
  | cons c cs ih =>
    by_cases h : isDigitC c
    · simpa only [takeDigits, if_pos h] using ih
    · simp only [takeDigits, if_neg h]
      intro x xs hx
      injection hx with hx1 hx2
      rw [← hx1]
      simpa using h

/-- `takeDigits` recovers a digit run followed by a non-digit-headed
rest. -/
theorem takeDigits_append (a r : List Char) (ha : ∀ c ∈ a, isDigitC c = true)
    (hr : ∀ c cs, r = c :: cs → isDigitC c = false) :
    takeDigits (a ++ r) = (a, r) := by
  induction a with
  | nil =>
    cases r with
    | nil => rfl
    | cons c cs => simp [takeDigits, hr c cs rfl]
  | cons c a' ih =>
    have hc : isDigitC c = true := ha c (by simp)
    simp only [List.cons_append, takeDigits, if_pos hc, List.append_eq]
    rw [ih fun x hx => ha x (List.mem_cons_of_mem c hx)]

/-- `takeDigits` consumes an all-digit list entirely. -/
theorem takeDigits_all (a : List Char) (ha : ∀ c ∈ a, isDigitC c = true) :
    takeDigits a = (a, []) := by
  have h := takeDigits_append a [] ha (by intro c cs h; cases h)
  simpa using h

/-- Equation for `dayDigits` when the digit run covers the input. -/
theorem dayDigits_run (l ds : List Char) (h : takeDigits l = (ds, [])) :
    dayDigits l =
      (if 1 ≤ ds.length ∧ ds.length ≤ 2 ∧ 1 ≤ digitsToNat ds ∧ digitsToNat ds ≤ 31 then
        some (digitsToNat ds)
      else none) := by
  simp [dayDigits, h]

/-- Equation for `dayDigits` when a non-digit remains. -/
theorem dayDigits_stuck (l ds : List Char) (c : Char) (cs : List Char)
    (h : takeDigits l = (ds, c :: cs)) : dayDigits l = none := by
  simp [dayDigits, h]

/-- A successful `dayDigits` means the whole input is a digit run of
length 1..2 valued 1..31, and returns that value. -/
theorem dayDigits_sound (l : List Char) (dv : ℕ) (h : dayDigits l = some dv) :
    (∀ ch ∈ l, isDigitC ch = true) ∧ 1 ≤ l.length ∧ l.length ≤ 2 ∧
    1 ≤ digitsToNat l ∧ digitsToNat l ≤ 31 ∧ dv = digitsToNat l := by
  rcases htd : takeDigits l with ⟨ds, r⟩
  cases r with
  | cons c cs => rw [dayDigits_stuck l ds c cs htd] at h; cases h
  | nil =>
    have hds : l = ds := by
      have h2 := takeDigits_eq l
      rw [htd] at h2
      simpa using h2
    subst hds
    rw [dayDigits_run l l htd] at h
    by_cases hcond : 1 ≤ l.length ∧ l.length ≤ 2 ∧ 1 ≤ digitsToNat l ∧ digitsToNat l ≤ 31
    · rw [if_pos hcond] at h
      injection h with h
      have hdig : ∀ ch ∈ l, isDigitC ch = true := by
        have h3 := takeDigits_digits l
        rw [htd] at h3
        exact h3
      exact ⟨hdig, hcond.1, hcond.2.1, hcond.2.2.1, hcond.2.2.2, h.symm⟩
    · rw [if_neg hcond] at h
      cases h

/-- A successful `parseDay` exhibits a day field. -/
theorem parseDay_sound (l : List Char) (dv : ℕ) (h : parseDay l = some dv) : dayStr l dv := by
  rcases l with _ | ⟨c, _ | ⟨d, _ | ⟨e, rest⟩⟩⟩
  · rw [show parseDay [] = dayDigits [] from rfl] at h
    obtain ⟨_, h1, _⟩ := dayDigits_sound _ _ h
    simp at h1
  · rw [show parseDay [c] = dayDigits [c] from rfl] at h
    exact Or.inl (dayDigits_sound _ _ h)
  · have heq : parseDay [c, d] =
        (if c = ' ' then (if '1' ≤ d ∧ d ≤ '9' then some (charVal d) else none)
         else dayDigits [c, d]) := rfl
    by_cases hc : c = ' '
    · subst hc
      rw [heq, if_pos rfl] at h
      by_cases hd : '1' ≤ d ∧ d ≤ '9'
      · rw [if_pos hd] at h
        injection h with h
        exact Or.inr ⟨d, rfl, hd.1, hd.2, h.symm⟩
      · rw [if_neg hd] at h
        cases h
    · rw [heq, if_neg hc] at h
      exact Or.inl (dayDigits_sound _ _ h)
  · rw [show parseDay (c :: d :: e :: rest) = dayDigits (c :: d :: e :: rest) from rfl] at h
    obtain ⟨_, _, h2, _⟩ := dayDigits_sound _ _ h
    simp at h2

/-- Every day field is accepted by `parseDay` with its value. -/
theorem parseDay_complete (l : List Char) (dv : ℕ) (h : dayStr l dv) : parseDay l = some dv := by
  rcases h with ⟨hdig, hlen1, hlen2, hv1, hv31, hdv⟩ | ⟨d, hc, hd1, hd9, hdv⟩
  · rcases l with _ | ⟨c, _ | ⟨d, _ | ⟨e, rest⟩⟩⟩
    · simp at hlen1
    · have hdd : dayDigits [c] = some (digitsToNat [c]) := by
        rw [dayDigits_run [c] [c] (takeDigits_all _ hdig)]
        exact if_pos ⟨hlen1, hlen2, hv1, hv31⟩
      rw [show parseDay [c] = dayDigits [c] from rfl, hdd, hdv]
    · have hcne : ¬ c = ' ' := by
        intro hceq
        have h2 := hdig c (by simp)
        rw [hceq] at h2
        exact absurd h2 (by decide)
      have hdd : dayDigits [c, d] = some (digitsToNat [c, d]) := by
        rw [dayDigits_run [c, d] [c, d] (takeDigits_all _ hdig)]
        exact if_pos ⟨hlen1, hlen2, hv1, hv31⟩
      have heq : parseDay [c, d] =
          (if c = ' ' then (if '1' ≤ d ∧ d ≤ '9' then some (charVal d) else none)
           else dayDigits [c, d]) := rfl
      rw [heq, if_neg hcne, hdd, hdv]
    · simp at hlen2
  · subst hc
    have heq : parseDay [' ', d] =
        (if (' ' : Char) = ' ' then (if '1' ≤ d ∧ d ≤ '9' then some (charVal d) else none)
         else dayDigits [' ', d]) := rfl
    rw [heq, if_pos rfl, if_pos ⟨hd1, hd9⟩, hdv]

/-- A successful `parseMonthDay` exhibits a month field, a dash, and a
day field. -/
theorem parseMonthDay_sound (r2 : List Char) (m dv : ℕ)
    (h : parseMonthDay r2 = some (m, dv)) :
    ∃ b c, r2 = b ++ '-' :: c ∧ monthStr b ∧ m = digitsToNat b ∧ dayStr c dv := by
  rcases htd : takeDigits r2 with ⟨ms, r3⟩
  have hsplit := takeDigits_eq r2
  rw [htd] at hsplit
  have hmsd := takeDigits_digits r2
  rw [htd] at hmsd
  cases r3 with
  | nil => simp [parseMonthDay, htd] at h
  | cons c2 r4 =>
    simp only [parseMonthDay, htd] at h
    by_cases h1 : c2 = '-' ∧ 1 ≤ ms.length ∧ ms.length ≤ 2 ∧
        1 ≤ digitsToNat ms ∧ digitsToNat ms ≤ 12
    · rw [if_pos h1] at h
      cases hpd : parseDay r4 with
      | none => rw [hpd] at h; cases h
      | some dv2 =>
        rw [hpd] at h
        injection h with h
        injection h with hm hdv
        refine ⟨ms, r4, ?_, ⟨hmsd, h1.2.1, h1.2.2.1, h1.2.2.2.1, h1.2.2.2.2⟩, hm.symm, ?_⟩
        · rw [hsplit, h1.1]
        · rw [hdv] at hpd
          exact parseDay_sound r4 dv hpd
    · rw [if_neg h1] at h
      cases h

/-- `parseMonthDay` accepts every month-dash-day tail. -/
theorem parseMonthDay_complete (b c : List Char) (dv : ℕ)
    (hb : monthStr b) (hc : dayStr c dv) :
    parseMonthDay (b ++ '-' :: c) = some (digitsToNat b, dv) := by
  have htd : takeDigits (b ++ '-' :: c) = (b, '-' :: c) := by
    apply takeDigits_append b ('-' :: c) hb.1
    intro x xs hx
    injection hx with h1 h2
    rw [← h1]
    decide
  simp only [parseMonthDay, htd]
  rw [if_pos ⟨trivial, hb.2.1, hb.2.2.1, hb.2.2.2.1, hb.2.2.2.2⟩,
      parseDay_complete c dv hc]
  rfl

/-- A successful `parseYMD` exhibits a four-digit year, a dash, and a
month-dash-day tail. -/
theorem parseYMD_sound (l : List Char) (y m dv : ℕ)
    (h : parseYMD l = some (y, m, dv)) :
    ∃ a r2, l = a ++ '-' :: r2 ∧ (∀ ch ∈ a, isDigitC ch = true) ∧ a.length = 4 ∧
      y = digitsToNat a ∧ parseMonthDay r2 = some (m, dv) := by
  rcases htd : takeDigits l with ⟨ys, r1⟩
  have hsplit := takeDigits_eq l
  rw [htd] at hsplit
  have hysd := takeDigits_digits l
  rw [htd] at hysd
  cases r1 with
  | nil => simp [parseYMD, htd] at h
  | cons c1 r2 =>
    simp only [parseYMD, htd] at h
    by_cases h1 : c1 = '-' ∧ ys.length = 4
    · rw [if_pos h1] at h
      cases hmd : parseMonthDay r2 with
      | none => rw [hmd] at h; cases h
      | some md =>
        rw [hmd] at h
        injection h with h
        injection h with hy hmdv
        refine ⟨ys, r2, ?_, hysd, h1.2, hy.symm, ?_⟩
        · rw [hsplit, h1.1]
        · rw [hmd, ← hmdv]
    · rw [if_neg h1] at h
      cases h

/-- `parseYMD` accepts every four-digit year followed by a dash and an
accepted tail. -/
theorem parseYMD_complete (a r2 : List Char) (m dv : ℕ)
    (ha : ∀ ch ∈ a, isDigitC ch = true) (ha4 : a.length = 4)
    (hmd : parseMonthDay r2 = some (m, dv)) :
    parseYMD (a ++ '-' :: r2) = some (digitsToNat a, m, dv) := by
  have htd : takeDigits (a ++ '-' :: r2) = (a, '-' :: r2) := by
    apply takeDigits_append a ('-' :: r2) ha
    intro x xs hx
    injection hx with h1 h2
    rw [← h1]
    decide
  simp only [parseYMD, htd]
  rw [if_pos ⟨trivial, ha4⟩, hmd]
  rfl

/-- C8, counterexample: "2025-1-2" is not in strict `YYYY-MM-DD` shape,
yet `safe_parse_date` resolves it (strptime's `%m`/`%d` also accept
single digits), so "resolves exactly the strict format" is false. -/
theorem c8_counterexample :
    (safe_parse_date (some "2025-1-2")).isSome = true ∧
    strictYMDB "2025-1-2" = false := by
  refine ⟨?_, ?_⟩ <;> decide

/-- C8: `safe_parse_date` never raises (it is a total function into
`Option`), is unresolved on `None`, and resolves exactly the strings of
the form year-dash-month-dash-day where the year is exactly four digits
with value at least 1, the month is one or two digits valued 1..12, and
the day is one or two digits (or a space and one nonzero digit) whose
value exists in that month — so empty strings, `MM/DD/YYYY` and other
shapes are unresolved, but zero-padding of month and day is optional,
unlike the claim's strict `YYYY-MM-DD`. -/
theorem c8_resolution (os : Option String) :
    (safe_parse_date os).isSome = true ↔ ∃ s, os = some s ∧ flexYMD s := by
  constructor
  · intro h
    cases os with
    | none => simp [safe_parse_date] at h
    | some s =>
      refine ⟨s, rfl, ?_⟩
      rcases hp : parseYMD s.data with _ | ⟨y, m, dv⟩
      · simp [safe_parse_date, hp] at h
      · simp only [safe_parse_date, hp] at h
        by_cases hv : 1 ≤ y ∧ dv ≤ daysInMonth y m
        · obtain ⟨a, r2, hsplit, ha, ha4, hy, hmd⟩ := parseYMD_sound _ _ _ _ hp
          obtain ⟨b, c, hsplit2, hb, hm, hc⟩ := parseMonthDay_sound _ _ _ hmd
          refine ⟨a, b, c, dv, ?_, ha, ha4, ?_, hb, hc, ?_⟩
          · rw [hsplit, hsplit2]
          · rw [← hy]; exact hv.1
          · rw [← hy, ← hm]; exact hv.2
        · rw [if_neg hv] at h
          simp at h
  · rintro ⟨s, rfl, a, b, c, dv, hsplit, ha, ha4, hav, hb, hc, hval⟩
    have hmd := parseMonthDay_complete b c dv hb hc
    have hymd := parseYMD_complete a (b ++ '-' :: c) (digitsToNat b) dv ha ha4 hmd
    simp only [safe_parse_date, hsplit, hymd]
    rw [if_pos ⟨hav, hval⟩]
    rfl

/-- C8, witness: "2025-10-12" is resolved, via the flexible-format
characterisation. -/
theorem c8_witness : (safe_parse_date (some "2025-10-12")).isSome = true :=
  (c8_resolution (some "2025-10-12")).mpr
    ⟨"2025-10-12", rfl, ['2', '0', '2', '5'], ['1', '0'], ['1', '2'], 12,
      by decide, by decide, by decide, by decide,
      by constructor <;> decide, Or.inl (by refine ⟨?_, ?_, ?_, ?_, ?_, ?_⟩ <;> decide),
      by decide⟩

/-! ## Claim C10 -/

/-- C10: keyword detection is substring-based — the task titled
"billing", none of whose whitespace-separated words is an urgent
keyword, is still forced High with the reason
"contains urgent keyword: bill" because "bill" occurs inside
"billing". -/
theorem c10_substring_matching :
    get_effective_priority 0 { title := "billing" } =
      { priority := "High", reason := "contains urgent keyword: bill" } ∧
    (urgent_keywords.all
        fun kw => !((pyWords (pyLowerStr "billing")).contains kw)) = true := by
  refine ⟨?_, ?_⟩ <;> decide

end FamilyCalendar
